import Mathlib

/-!
Verification of the layered memory and context-compression subsystem
(`backend/app/services/context_manager.py`, `memory_service.py`,
`embedding_service.py`) against its natural-language specification.

Python strings are modelled as Lean `String`s; the string operations the
source uses (`lower`, `split`, `strip`, substring `in`, `startswith`,
`join`) are given structural-recursive models on the character list so the
kernel can evaluate them.  Machine floats are modelled as real numbers;
importance scores (exact decimal arithmetic in all claims) as rationals.
Database rows are passed in and returned explicitly; `datetime.now()`
calls are modelled as explicit rational timestamps (in hours), one per
call site, assumed monotone where the source's clock is.
-/

/-- Model of Python's `pat in s` substring test: does `pat` occur as a
contiguous run of characters of `s`?  (`startsList pat l` is `l` starting
with `pat`.) -/
def startsList : List Char → List Char → Bool
  | [], _ => true
  | _ :: _, [] => false
  | a :: as, b :: bs => a == b && startsList as bs

/-- Auxiliary scan for the substring test. -/
def substrAux : List Char → List Char → Bool
  | [], pat => pat.isEmpty
  | c :: rest, pat => startsList pat (c :: rest) || substrAux rest pat

/-- Python `pat in s` (substring containment). -/
def containsSub (s pat : String) : Bool :=
  substrAux s.toList pat.toList

/-- Python `s.lower()` (character-wise lowercasing). -/
def pyLower (s : String) : String :=
  String.mk (s.toList.map Char.toLower)

/-- Python `s.startswith(pat)`. -/
def pyStartsWith (s pat : String) : Bool :=
  startsList pat.toList s.toList

/-- Characters dropped by Python `s.strip()` from both ends. -/
def trimList (l : List Char) : List Char :=
  ((l.dropWhile Char.isWhitespace).reverse.dropWhile Char.isWhitespace).reverse

/-- Python `s.strip()`. -/
def pyStrip (s : String) : String :=
  String.mk (trimList s.toList)

/-- Dropping the first `n` characters of a string (Python `s[n:]`). -/
def pyDropChars (s : String) (n : ℕ) : String :=
  String.mk (s.toList.drop n)

/-- Splitting a character list on whitespace runs, discarding empty
pieces, as Python `s.split()` does; `acc` holds the (reversed) current
word. -/
def splitWsAux : List Char → List Char → List (List Char)
  | [], acc => if acc.isEmpty then [] else [acc.reverse]
  | c :: rest, acc =>
    if c.isWhitespace then
      if acc.isEmpty then splitWsAux rest [] else acc.reverse :: splitWsAux rest []
    else splitWsAux rest (c :: acc)

/-- Python `s.split()` (whitespace tokenisation, no empty tokens). -/
def pySplitWs (s : String) : List String :=
  (splitWsAux s.toList []).map String.mk

/-- Python `sep.join(items)`. -/
def pyJoin (sep : String) : List String → String
  | [] => ""
  | x :: xs => xs.foldl (fun acc y => acc ++ sep ++ y) x

/-- Python `min` on the exactly-represented scores, written with an
explicit comparison so that the kernel can evaluate it. -/
def pyMin (a b : ℚ) : ℚ := if a ≤ b then a else b

/-- Python `max`, written with an explicit comparison. -/
def pyMax (a b : ℚ) : ℚ := if a ≤ b then b else a

/-- One chat turn as the context manager sees it: the dict
`{"role": ..., "content": ...}`. -/
structure Msg where
  role : String
  content : String
deriving DecidableEq, Repr

/-! ### Short-Term Context Selector (`context_manager.py`) -/

/-- `ContextManager.recent_limit` — last N messages kept in full. -/
def recent_limit : ℕ := 5

/-- `ContextManager.important_limit` — important older messages kept. -/
def important_limit : ℕ := 2

/-- `ContextManager.summary_threshold` — summarise if more than N total. -/
def summary_threshold : ℕ := 15

/-- Emotional vocabulary used by `ContextManager._score_importance`. -/
def emotionalWords : List String :=
  ["sad", "happy", "anxious", "afraid", "angry", "excited",
   "worried", "stressed", "joy", "love", "help", "important"]

/-- Heuristic score of one message in `ContextManager._score_importance`:
length bonus capped at 2, +1 for emotional vocabulary, +0.5 for
assistant role. -/
def ctxScore (msg : Msg) : ℚ :=
  let contentLower := pyLower msg.content
  let lengthBonus : ℚ := pyMin ((msg.content.length : ℚ) / 200) 2
  let emotionBonus : ℚ :=
    if emotionalWords.any (fun word => containsSub contentLower word) then 1 else 0
  let roleBonus : ℚ := if msg.role = "assistant" then 0.5 else 0
  lengthBonus + emotionBonus + roleBonus

/-- Comparison used to model Python's stable `sorted(..., reverse=True)`
on `(message, score)` pairs: `a` may precede `b` iff `b`'s score is not
larger. -/
def pairGE (a b : Msg × ℚ) : Prop := b.2 ≤ a.2

instance : DecidableRel pairGE := fun a b => inferInstanceAs (Decidable (b.2 ≤ a.2))

instance : IsTotal (Msg × ℚ) pairGE := ⟨fun a b => le_total b.2 a.2⟩

instance : IsTrans (Msg × ℚ) pairGE := ⟨fun _ _ _ hab hbc => le_trans hbc hab⟩

/-- `ContextManager._score_importance`: score every message and return the
messages sorted by score, highest first (Python's `sorted` is a stable
sort, modelled by stable insertion sort). -/
def scoreImportanceCtx (messages : List Msg) : List Msg :=
  let scores := messages.map (fun msg => (msg, ctxScore msg))
  (List.insertionSort pairGE scores).map Prod.fst

/-- `ContextManager._create_summary`: collapse an older conversation
segment into one synthetic system message.  (The source returns an empty
dict for an empty input; modelled as a message with empty fields,
unreachable from `getOptimizedHistory`.) -/
def createSummary (messages : List Msg) : Msg :=
  if messages.isEmpty then ⟨"", ""⟩
  else
    let userMsgs := (messages.filter (fun m => m.role = "user")).map Msg.content
    let summary :=
      "Earlier in this conversation, the user discussed: " ++ pyJoin ", " (userMsgs.take 2)
    let summary :=
      if 2 < userMsgs.length then
        summary ++ " ...and " ++ toString (userMsgs.length - 2) ++ " more topics"
      else summary
    ⟨"system", "[CONTEXT SUMMARY] " ++ summary⟩

/-- `ContextManager.get_optimized_history` after the database fetch: the
pure selection over the chronologically ordered message dicts.
Python negative slices `l[-k:]` and `l[:-k]` become `drop (len - k)` and
`take (len - k)`. -/
def getOptimizedHistory (all_dicts : List Msg) : List Msg :=
  if all_dicts.isEmpty then []
  else if all_dicts.length ≤ recent_limit then all_dicts
  else
    let recent := all_dicts.drop (all_dicts.length - recent_limit)
    if all_dicts.length ≤ summary_threshold then recent
    else
      let older := all_dicts.take (all_dicts.length - recent_limit)
      let sorted := scoreImportanceCtx older
      let important := sorted.drop (sorted.length - important_limit)
      let very_old_count := older.length - important.length
      if 0 < very_old_count then
        createSummary (older.take (older.length - important.length)) :: important ++ recent
      else important ++ recent

/-! ### Memory service: summary extraction (`MemoryService._extract_summary`) -/

/-- Marker prefix produced by the Selector's summary message. -/
def summaryMarker : String := "[CONTEXT SUMMARY]"

/-- Test used by `MemoryService._extract_summary` on each history entry:
a system-role message whose content starts with the marker. -/
def isSummaryMessage (m : Msg) : Bool :=
  m.role == "system" && pyStartsWith m.content summaryMarker

/-- Loop body of `MemoryService._extract_summary`.  Under the
`startswith` guard, Python's `content.replace(marker, "", 1)` removes the
leading occurrence, i.e. drops the first `len(marker)` characters. -/
def extractStep (acc : Option String × List Msg) (message : Msg) : Option String × List Msg :=
  if isSummaryMessage message then
    (some (pyStrip (pyDropChars message.content summaryMarker.length)), acc.2)
  else
    (acc.1, acc.2 ++ [message])

/-- `MemoryService._extract_summary`: split a history into the extracted
summary text (last marked message wins) and the remaining messages. -/
def extractSummary (history : List Msg) : Option String × List Msg :=
  history.foldl extractStep (none, [])

/-! ### Memory service: importance scoring (`MemoryService._score_importance`) -/

/-- Emotion labels granting the +0.25 bonus. -/
def strongEmotions : List String := ["sadness", "fear", "anger", "hopeless"]

/-- The apostrophe character, used by one of the markers. -/
def apos : Char := Char.ofNat 39

/-- First-person/absolutist marker lexicon of
`MemoryService._score_importance`. -/
def importanceMarkers : List String :=
  ["always", "never", "I feel", "I" ++ String.singleton apos ++ "ve been", "no one", "worthless"]

/-- `MemoryService._score_importance`: the importance heuristic of the
semantic-store write path.  Empty text short-circuits to 0. -/
def scoreImportance (text : String) (emotion_label : Option String) : ℚ :=
  if text = "" then 0
  else
    let base : ℚ := pyMin ((text.length : ℚ) / 400) 0.4
    let emotionBonus : ℚ :=
      if (match emotion_label with
          | some l => l != "" && strongEmotions.contains (pyLower l)
          | none => false) then 0.25 else 0
    let markerBonus : ℚ :=
      if importanceMarkers.any (fun marker => containsSub (pyLower text) (pyLower marker))
      then 0.25 else 0
    let crisisBonus : ℚ :=
      if containsSub (pyLower text) "suicide" || containsSub (pyLower text) "harm myself"
      then 0.4 else 0
    pyMin (base + emotionBonus + markerBonus + crisisBonus) 1

/-- Modelled from the spec's words, for comparison with the source's
`_score_importance` (claim C3): importance = min(len(text)/400, 0.4)
+ 0.25 if the label is sadness/fear/anger/hopeless + 0.25 if a fixed
first-person/absolutist marker is present + 0.4 if explicit
self-harm/suicide terms are present, capped at 1.0 — with no special case
for empty text. -/
def scoreImportanceSpec (text : String) (emotion_label : Option String) : ℚ :=
  let base : ℚ := pyMin ((text.length : ℚ) / 400) 0.4
  let emotionBonus : ℚ :=
    if (match emotion_label with
        | some l => strongEmotions.contains (pyLower l)
        | none => false) then 0.25 else 0
  let markerBonus : ℚ :=
    if importanceMarkers.any (fun marker => containsSub (pyLower text) (pyLower marker))
    then 0.25 else 0
  let crisisBonus : ℚ :=
    if containsSub (pyLower text) "suicide" || containsSub (pyLower text) "harm myself"
    then 0.4 else 0
  pyMin (base + emotionBonus + markerBonus + crisisBonus) 1

/-! ### Semantic memory write path (`MemoryService.maybe_store_semantic_memory`) -/

/-- A `SemanticMemory` row as created by the write path. -/
structure SemanticMemoryRec where
  user_id : ℕ
  message_id : ℕ
  conversation_id : ℕ
  content : String
  embedding : List ℝ
  emotion_label : Option String
  importance_score : ℚ
  source : String

/-- `MemoryService.maybe_store_semantic_memory`, with the embedding the
provider returned for `message_text` passed in explicitly: `none` means no
row was inserted, `some rec` the inserted row. -/
def maybeStoreSemanticMemory (user_id conversation_id message_id : ℕ)
    (embedding : List ℝ) (message_text : String) (emotion_label : Option String)
    (source : String := "chat") : Option SemanticMemoryRec :=
  let score := scoreImportance message_text emotion_label
  if score < 0.55 then none
  else if embedding.isEmpty then none
  else
    some {
      user_id := user_id
      message_id := message_id
      conversation_id := conversation_id
      content := message_text
      embedding := embedding
      emotion_label := emotion_label
      importance_score := score
      source := source }

/-! ### Embedding provider (`embedding_service.py`) and cosine similarity -/

/-- Sum of squares of a vector (`sum(x * x for x in v)`). -/
def sumSq (v : List ℝ) : ℝ := (v.map fun x => x * x).sum

/-- Dot product (`sum(x * y for x, y in zip(a, b))`). -/
def dotList (a b : List ℝ) : ℝ := ((a.zip b).map fun p => p.1 * p.2).sum

open Classical in
/-- Python `s ** 0.5 or 1.0` (also `math.sqrt(s) or 1.0`) applied to a
sum of squares: the square root, replaced by 1 when it is 0. -/
noncomputable def sqrtOr1 (s : ℝ) : ℝ :=
  if Real.sqrt s = 0 then 1 else Real.sqrt s

open Classical in
/-- `MemoryService._cosine_similarity`: 0 for empty or length-mismatched
vectors, otherwise the normalised dot product clamped to [0, 1]. -/
noncomputable def cosineSimilarity (a b : List ℝ) : ℝ :=
  if a.isEmpty || b.isEmpty || a.length != b.length then 0
  else
    let dot := dotList a b
    let norm_a := sqrtOr1 (sumSq a)
    let norm_b := sqrtOr1 (sumSq b)
    min 1 (max 0 (dot / (norm_a * norm_b)))

/-- One iteration of `EmbeddingService._hash_embed`'s accumulation loop:
`vector[hash(word) % len(vector)] += 1.0`.  The Python `hash` builtin is
seed-dependent, so it is a parameter `h`. -/
def hashStep (h : String → ℕ) (vector : List ℝ) (word : String) : List ℝ :=
  let idx := h word % vector.length
  vector.set idx (vector.getD idx 0 + 1)

/-- `EmbeddingService._hash_embed`: hashed bag-of-words over 64 buckets,
L2-normalised (with the `or 1.0` guard on a zero norm). -/
noncomputable def hashEmbed (h : String → ℕ) (text : String) : List ℝ :=
  let vector := (pySplitWs (pyLower text)).foldl (hashStep h) (List.replicate 64 0)
  let norm := sqrtOr1 (sumSq vector)
  vector.map fun v => v / norm

/-- `EmbeddingService.embed` in fallback mode (the transformer model is
unavailable, `model is None`): empty input gives the empty vector,
otherwise the hash embedding. -/
noncomputable def embedFallback (h : String → ℕ) (text : String) : List ℝ :=
  if text = "" then [] else hashEmbed h text

/-! ### Semantic retrieval (`MemoryService._retrieve_semantic_memories`) -/

/-- A stored `SemanticMemory` row as the retrieval candidate pool sees it.
`embedding` is `none` for a row whose stored embedding is unusable
(cosine similarity on it raises and is caught, yielding 0.0). -/
structure SemanticMemoryRow where
  content : String
  embedding : Option (List ℝ)
  emotion_label : Option String
  importance_score : Option ℚ
  source : String

/-- A `SemanticMemorySnippet` of the response schema. -/
structure SemanticMemorySnippetM where
  content : String
  emotion_label : Option String
  importance : ℚ
  match_score : ℝ
  source : String

/-- Descending-by-`match_score` comparison for the final
`scored.sort(key=..., reverse=True)`. -/
def snippetGE (a b : SemanticMemorySnippetM) : Prop := b.match_score ≤ a.match_score

instance : IsTotal SemanticMemorySnippetM snippetGE := ⟨fun a b => le_total b.match_score a.match_score⟩

instance : IsTrans SemanticMemorySnippetM snippetGE := ⟨fun _ _ _ hab hbc => le_trans hbc hab⟩

noncomputable instance : DecidableRel snippetGE := fun _ _ => Classical.propDecidable _

open Classical in
/-- Loop body over the candidate pool: compute the similarity (0.0 when
the stored embedding is unusable and the computation raises), skip
non-positive similarities, otherwise append a snippet. -/
noncomputable def retrieveStepFn (reference_embedding : List ℝ)
    (scored : List SemanticMemorySnippetM) (memory : SemanticMemoryRow) :
    List SemanticMemorySnippetM :=
  let similarity :=
    match memory.embedding with
    | none => (0 : ℝ)
    | some e => cosineSimilarity reference_embedding e
  if similarity ≤ 0 then scored
  else
    scored ++ [{
      content := memory.content
      emotion_label := memory.emotion_label
      importance := memory.importance_score.getD 0
      match_score := similarity
      source := memory.source }]

open Classical in
/-- `MemoryService._retrieve_semantic_memories` with the reference
embedding and the user's candidate pool (the at-most-50 most important
rows, already user-scoped by the query) passed in explicitly: empty
reference embedding short-circuits to `[]`; otherwise score, filter,
sort descending (stable) and take `SEMANTIC_LIMIT = 3`. -/
noncomputable def retrieveSemanticMemories (reference_embedding : List ℝ)
    (candidates : List SemanticMemoryRow) : List SemanticMemorySnippetM :=
  if reference_embedding.isEmpty then []
  else
    let scored := candidates.foldl (retrieveStepFn reference_embedding) []
    (List.insertionSort snippetGE scored).take 3

/-! ### Emotional profile aggregator (`MemoryService._get_or_compute_profile`) -/

/-- Lookup in the emotion-distribution map (`dict.get(key, 0.0)`). -/
def distGet (d : List (String × ℚ)) (key : String) : ℚ :=
  ((d.find? fun p => p.1 == key).map Prod.snd).getD 0

/-- Result of `EmotionAnalyticsService.generate_user_insights` (external
collaborator; consumed as data). -/
structure Insight where
  period_days : ℕ
  dominant_emotion : Option String
  dominance_pct : Option ℚ
  emotion_distribution : List (String × ℚ)
  trend : Option String
  volatility_flag : Bool
  log_count : ℕ

/-- An `EmotionalProfile` database row.  Timestamps are rational hour
counts; fields the source reads through `... or 0`/`... or 0.0` are
optional. -/
structure ProfileRow where
  user_id : ℕ
  period_days : ℕ
  window_start : ℚ
  window_end : ℚ
  dominant_emotion : Option String
  dominance_pct : Option ℚ
  anxiety_score : Option ℚ
  sadness_score : Option ℚ
  resilience_score : Option ℚ
  volatility_index : Option ℚ
  log_count : Option ℕ
  emotion_distribution : List (String × ℚ)
  trend : Option String
  computed_at : Option ℚ

/-- An `EmotionalProfileSummary` of the response schema. -/
structure EmotionalProfileSummaryM where
  dominant_emotion : Option String
  dominance_pct : ℚ
  volatility_index : ℚ
  resilience_score : ℚ
  log_count : ℕ
  trend : Option String
  computed_at : Option ℚ
deriving DecidableEq, Repr

/-- `MemoryService.PROFILE_TTL` — 12 hours. -/
def profileTTL : ℚ := 12

/-- `MemoryService._get_or_compute_profile`.  `profile_row` is the
newest stored row for the user (result of the ordered query), `insight`
the Analytics collaborator's answer were it consulted.  The three
`datetime.now(timezone.utc)` calls the source makes are the explicit
timestamps `now1` (freshness check, line 198), `now2` (the value stored
in `computed_at` on recompute, lines 252/255) and `now3` (the value the
recompute path returns in the summary, line 265).  Returns the summary
and the user's newest stored row afterwards. -/
def getOrComputeProfile (profile_row : Option ProfileRow) (insight : Insight)
    (user_id : ℕ) (now1 now2 now3 : ℚ) :
    EmotionalProfileSummaryM × Option ProfileRow :=
  match profile_row with
  | some row =>
    match row.computed_at with
    | some c =>
      if now1 - c ≤ profileTTL then
        ({ dominant_emotion := row.dominant_emotion
           dominance_pct := row.dominance_pct.getD 0
           volatility_index := row.volatility_index.getD 0
           resilience_score := row.resilience_score.getD 0
           log_count := row.log_count.getD 0
           trend := row.trend
           computed_at := some c }, profile_row)
      else recomputeProfile profile_row insight user_id now1 now2 now3
    | none => recomputeProfile profile_row insight user_id now1 now2 now3
  | none => recomputeProfile profile_row insight user_id now1 now2 now3
where
  /-- Stale/missing branch: build `profile_data` from the insight, update
  the existing row in place (or insert the new one) — both source
  branches leave the same field values, so the stored row is
  `profile_data` either way — bump `computed_at` to `now2`, and return a
  summary stamped with a fresh `now3`. -/
  recomputeProfile (_profile_row : Option ProfileRow) (insight : Insight)
      (user_id : ℕ) (now1 now2 now3 : ℚ) :
      EmotionalProfileSummaryM × Option ProfileRow :=
    let profile_data : ProfileRow := {
      user_id := user_id
      period_days := insight.period_days
      window_start := now1 - 24 * insight.period_days
      window_end := now1
      dominant_emotion := insight.dominant_emotion
      dominance_pct := insight.dominance_pct
      anxiety_score := some (distGet insight.emotion_distribution "fear"
        + distGet insight.emotion_distribution "anxious")
      sadness_score := some (distGet insight.emotion_distribution "sadness")
      resilience_score := some (pyMax 0 (1 - (if insight.volatility_flag then (0.5 : ℚ) else 0)))
      volatility_index := some (if insight.volatility_flag then 1 else 0)
      log_count := some insight.log_count
      emotion_distribution := insight.emotion_distribution
      trend := insight.trend
      computed_at := some now2 }
    ({ dominant_emotion := profile_data.dominant_emotion
       dominance_pct := profile_data.dominance_pct.getD 0
       volatility_index := profile_data.volatility_index.getD 0
       resilience_score := profile_data.resilience_score.getD 0
       log_count := profile_data.log_count.getD 0
       trend := profile_data.trend
       computed_at := some now3 }, some profile_data)

/-! ### Memory bundle orchestrator (`MemoryService.build_memory_bundle`) -/

/-- A `MetaReflectionSummary` of the response schema (patterns map kept
free-form). -/
structure MetaReflectionSummaryM where
  summary : Option String
  detected_patterns : List (String × String)
  generated_at : Option ℚ

/-- A `ShortTermContext` of the response schema. -/
structure ShortTermContextM where
  summary : Option String
  recent_messages : List Msg

/-- The transient `MemoryBundle`. -/
structure MemoryBundleM where
  short_term : ShortTermContextM
  semantic_memories : List SemanticMemorySnippetM
  emotional_profile : Option EmotionalProfileSummaryM
  meta_reflection : Option MetaReflectionSummaryM

/-- `MemoryService.build_memory_bundle`: extract the summary from the
history, then run the four awaited steps in order — context-cache
upsert, semantic retrieval, profile compute, reflection compute.  The
steps perform database/collaborator I/O, so each is passed in as an
`Except`-valued action; exactly as in the source, no step is wrapped in
any exception handler, so the monadic bind propagates the first error. -/
def buildMemoryBundle
    (upsertContextCacheStep : Option String → ℕ → Except String Unit)
    (retrieveSemanticStep : Except String (List SemanticMemorySnippetM))
    (profileStep : Except String (Option EmotionalProfileSummaryM))
    (reflectionStep : Option EmotionalProfileSummaryM → Except String (Option MetaReflectionSummaryM))
    (history : List Msg) : Except String MemoryBundleM := do
  let (summary, trimmed_history) := extractSummary history
  let _ ← upsertContextCacheStep summary trimmed_history.length
  let semantic ← retrieveSemanticStep
  let emotional_profile ← profileStep
  let meta_reflection ← reflectionStep emotional_profile
  pure {
    short_term := { summary := summary, recent_messages := trimmed_history }
    semantic_memories := semantic
    emotional_profile := emotional_profile
    meta_reflection := meta_reflection }

/-! ### Concrete inputs used by the claim evaluations -/

/-- The seed-independent stand-in for Python's `hash` builtin used in the
concrete evaluations (the claims hold for every hash function). -/
def hashZero : String → ℕ := fun _ => 0

/-- A 120-character whitespace-only message. -/
def spaces120 : String := String.mk (List.replicate 120 ' ')

/-- A 130-character whitespace-only message. -/
def spaces130 : String := String.mk (List.replicate 130 ' ')

/-- Row used by the C5 witness: computed at hour 0. -/
def wProfileRow : ProfileRow :=
  { user_id := 1, period_days := 30, window_start := 0, window_end := 0,
    dominant_emotion := none, dominance_pct := none, anxiety_score := none,
    sadness_score := none, resilience_score := none, volatility_index := none,
    log_count := none, emotion_distribution := [], trend := none,
    computed_at := some 0 }

/-- Insight used by the C5 witness. -/
def wInsight : Insight :=
  { period_days := 30, dominant_emotion := none, dominance_pct := none,
    emotion_distribution := [], trend := none, volatility_flag := false,
    log_count := 0 }

/-- History used to exhibit claim C2's divergence: eleven old turns of
strictly increasing length (hence strictly increasing importance score)
followed by five recent turns. -/
def hist16 : List Msg :=
  [⟨"user", "a"⟩, ⟨"user", "aa"⟩, ⟨"user", "aaa"⟩, ⟨"user", "aaaa"⟩,
   ⟨"user", "aaaaa"⟩, ⟨"user", "aaaaaa"⟩, ⟨"user", "aaaaaaa"⟩, ⟨"user", "aaaaaaaa"⟩,
   ⟨"user", "aaaaaaaaa"⟩, ⟨"user", "aaaaaaaaaa"⟩, ⟨"user", "aaaaaaaaaaa"⟩,
   ⟨"user", "r1"⟩, ⟨"user", "r2"⟩, ⟨"user", "r3"⟩, ⟨"user", "r4"⟩, ⟨"user", "r5"⟩]

/-! ### Claims -/

theorem pyMin_eq_min (a b : ℚ) : pyMin a b = min a b := (min_def a b).symm

theorem pyMax_eq_max (a b : ℚ) : pyMax a b = max a b := (max_def a b).symm


/-- The source's emotion-bonus condition (with the Python truthiness
check on the label) coincides with the plain membership test, since the
empty string is not a strong emotion. -/
theorem emotionCond_eq (l : String) :
    (l != "" && strongEmotions.contains (pyLower l)) = strongEmotions.contains (pyLower l) := by
  by_cases hl : l = ""
  · subst hl; decide
  · rw [bne_iff_ne.mpr hl, Bool.true_and]

/-- For non-empty text the source's importance score is exactly the
spec formula. -/
theorem scoreImportance_nonempty_eq (text : String) (label : Option String)
    (h : text ≠ "") : scoreImportance text label = scoreImportanceSpec text label := by
  unfold scoreImportance scoreImportanceSpec
  rw [if_neg h]
  rcases label with _ | l
  · rfl
  · simp only [emotionCond_eq]

/-- Every snippet accumulated by the retrieval loop has positive match
score (the `similarity <= 0` filter). -/
theorem retrieveFold_pos (ref : List ℝ) :
    ∀ (cands : List SemanticMemoryRow) (acc : List SemanticMemorySnippetM),
      (∀ s ∈ acc, 0 < s.match_score) →
      ∀ s ∈ cands.foldl (retrieveStepFn ref) acc, 0 < s.match_score := by
  intro cands
  induction cands with
  | nil => intro acc hacc s hs; exact hacc s hs
  | cons c cs ih =>
    intro acc hacc s hs
    refine ih _ ?_ s hs
    intro t ht
    unfold retrieveStepFn at ht
    by_cases hsim :
        (match c.embedding with
          | none => (0 : ℝ)
          | some e => cosineSimilarity ref e) ≤ 0
    · rw [if_pos hsim] at ht
      exact hacc t ht
    · rw [if_neg hsim] at ht
      rcases List.mem_append.mp ht with h | h
      · exact hacc t h
      · rcases List.mem_singleton.mp h with rfl
        exact not_le.mp hsim

/-- A candidate pool whose rows all lack a usable embedding contributes
nothing to the retrieval loop. -/
theorem retrieveFold_allNone (ref : List ℝ) :
    ∀ (cands : List SemanticMemoryRow) (acc : List SemanticMemorySnippetM),
      (∀ c ∈ cands, c.embedding = none) →
      cands.foldl (retrieveStepFn ref) acc = acc := by
  intro cands
  induction cands with
  | nil => intro acc _; rfl
  | cons c cs ih =>
    intro acc hall
    have hc : c.embedding = none := hall c (List.mem_cons_self c cs)
    have hstep : retrieveStepFn ref acc c = acc := by
      unfold retrieveStepFn
      rw [hc]
      exact if_pos le_rfl
    rw [List.foldl_cons, hstep]
    exact ih acc fun d hd => hall d (List.mem_cons_of_mem c hd)

/-- Claim C4 — confirmed: semantic retrieval never returns a snippet of
non-positive similarity, returns snippets in non-increasing match-score
order, returns at most `SEMANTIC_LIMIT = 3`, and degrades to the empty
list (instead of raising) for an empty reference embedding, an empty
candidate pool, or a pool of embedding-less rows. -/
theorem retrieval_guarantees (ref : List ℝ) (cands : List SemanticMemoryRow) :
    (∀ s ∈ retrieveSemanticMemories ref cands, 0 < s.match_score) ∧
    List.Sorted snippetGE (retrieveSemanticMemories ref cands) ∧
    (retrieveSemanticMemories ref cands).length ≤ 3 ∧
    (ref = [] → retrieveSemanticMemories ref cands = []) ∧
    (cands = [] → retrieveSemanticMemories ref cands = []) ∧
    ((∀ c ∈ cands, c.embedding = none) → retrieveSemanticMemories ref cands = []) := by
  unfold retrieveSemanticMemories
  by_cases href : ref.isEmpty = true
  · rw [if_pos href]
    exact ⟨fun s hs => absurd hs (List.not_mem_nil s), List.sorted_nil, by simp,
      fun _ => rfl, fun _ => rfl, fun _ => rfl⟩
  · rw [if_neg href]
    refine ⟨?_, ?_, ?_, ?_, ?_, ?_⟩
    · intro s hs
      exact retrieveFold_pos ref cands []
        (fun t ht => absurd ht (List.not_mem_nil t)) s
        ((List.perm_insertionSort snippetGE _).mem_iff.mp (List.mem_of_mem_take hs))
    · exact List.Pairwise.sublist (List.take_sublist 3 _)
        (List.sorted_insertionSort snippetGE _)
    · exact List.length_take_le 3 _
    · intro hnil
      exact absurd (by rw [hnil]; rfl) href
    · intro hnil
      rw [hnil]
      rfl
    · intro hall
      rw [retrieveFold_allNone ref cands [] hall]
      rfl

/-- Witness for C4 at a concrete embedding-less input: the empty
reference embedding yields the empty result (no exception). -/
theorem retrieval_guarantees_witness :
    retrieveSemanticMemories [] [⟨"m", none, none, none, "chat"⟩] = [] :=
  (retrieval_guarantees [] [⟨"m", none, none, none, "chat"⟩]).2.2.2.1 rfl

theorem sumSq_nil : sumSq [] = 0 := rfl

theorem sumSq_cons (x : ℝ) (v : List ℝ) : sumSq (x :: v) = x * x + sumSq v := by
  simp [sumSq]

theorem sumSq_nonneg (v : List ℝ) : 0 ≤ sumSq v := by
  induction v with
  | nil => simp [sumSq]
  | cons x xs ih => rw [sumSq_cons]; exact add_nonneg (mul_self_nonneg x) ih

theorem sumSq_replicate_zero (n : ℕ) : sumSq (List.replicate n (0 : ℝ)) = 0 := by
  induction n with
  | zero => rfl
  | succ m ih => rw [List.replicate_succ, sumSq_cons, ih]; ring

theorem dotList_self (v : List ℝ) : dotList v v = sumSq v := by
  induction v with
  | nil => rfl
  | cons x xs ih => simp [dotList, sumSq_cons] at ih ⊢; exact ih

theorem sqrtOr1_zero : sqrtOr1 0 = 1 := by
  unfold sqrtOr1
  rw [if_pos Real.sqrt_zero]

theorem sqrtOr1_of_pos {s : ℝ} (h : 0 < s) : sqrtOr1 s = Real.sqrt s := by
  unfold sqrtOr1
  rw [if_neg (ne_of_gt (Real.sqrt_pos.mpr h))]

/-- Self-similarity of a non-empty zero vector is 0: the `or 1.0` guard
replaces the zero norm by 1 and the dot product is 0. -/
theorem cosineSimilarity_zero_vec (v : List ℝ) (hne : v ≠ []) (h0 : sumSq v = 0) :
    cosineSimilarity v v = 0 := by
  have hempty : v.isEmpty = false := by
    cases v
    · exact absurd rfl hne
    · rfl
  unfold cosineSimilarity
  rw [if_neg (by simp [hempty])]
  rw [dotList_self, h0]
  norm_num [sqrtOr1_zero]

theorem length_hashStep (h : String → ℕ) (v : List ℝ) (w : String) :
    (hashStep h v w).length = v.length := by
  simp [hashStep]

theorem getD_zero_nonneg (v : List ℝ) (i : ℕ) (hv : ∀ x ∈ v, 0 ≤ x) :
    0 ≤ v.getD i 0 := by
  induction v generalizing i with
  | nil => simp
  | cons x xs ih =>
    cases i with
    | zero => simpa using hv x (List.mem_cons_self x xs)
    | succ n =>
      rw [List.getD_cons_succ]
      exact ih n fun y hy => hv y (List.mem_cons_of_mem x hy)

theorem hashStep_nonneg (h : String → ℕ) (v : List ℝ) (w : String)
    (hv : ∀ x ∈ v, 0 ≤ x) : ∀ x ∈ hashStep h v w, 0 ≤ x := by
  intro x hx
  unfold hashStep at hx
  rcases List.mem_or_eq_of_mem_set hx with h1 | rfl
  · exact hv x h1
  · exact add_nonneg (getD_zero_nonneg v _ hv) zero_le_one

theorem sumSq_set_add (v : List ℝ) (i : ℕ) (b : ℝ) (hi : i < v.length) :
    sumSq (v.set i b) + v.getD i 0 * v.getD i 0 = sumSq v + b * b := by
  induction v generalizing i with
  | nil => simp at hi
  | cons x xs ih =>
    cases i with
    | zero =>
      simp only [List.set_cons_zero, List.getD_cons_zero, sumSq_cons]
      ring
    | succ n =>
      have hn : n < xs.length := by simpa using hi
      simp only [List.set_cons_succ, List.getD_cons_succ, sumSq_cons]
      have := ih n hn
      linarith

theorem sumSq_hashStep_ge (h : String → ℕ) (v : List ℝ) (w : String)
    (hlen : 0 < v.length) (hv : ∀ x ∈ v, 0 ≤ x) :
    sumSq v + 1 ≤ sumSq (hashStep h v w) := by
  unfold hashStep
  have hilt : h w % v.length < v.length := Nat.mod_lt _ hlen
  have hset := sumSq_set_add v (h w % v.length) (v.getD (h w % v.length) 0 + 1) hilt
  have hg : 0 ≤ v.getD (h w % v.length) 0 := getD_zero_nonneg v _ hv
  nlinarith [hset, hg]

theorem hashFold_inv (h : String → ℕ) :
    ∀ (ws : List String) (v : List ℝ), 0 < v.length → (∀ x ∈ v, 0 ≤ x) →
      (ws.foldl (hashStep h) v).length = v.length ∧
      (∀ x ∈ ws.foldl (hashStep h) v, 0 ≤ x) ∧
      sumSq v ≤ sumSq (ws.foldl (hashStep h) v) := by
  intro ws
  induction ws with
  | nil => intro v _ hv; exact ⟨rfl, hv, le_rfl⟩
  | cons w ws ih =>
    intro v hl hv
    have h1 : (hashStep h v w).length = v.length := length_hashStep h v w
    obtain ⟨hlen2, hnn2, hss2⟩ :=
      ih (hashStep h v w) (h1 ▸ hl) (hashStep_nonneg h v w hv)
    rw [List.foldl_cons]
    refine ⟨by rw [hlen2, h1], hnn2, ?_⟩
    have hstep := sumSq_hashStep_ge h v w hl hv
    linarith

theorem sumSq_map_div (v : List ℝ) (c : ℝ) :
    sumSq (v.map fun x => x / c) = sumSq v / (c * c) := by
  induction v with
  | nil => simp [sumSq]
  | cons x xs ih =>
    simp only [List.map_cons, sumSq_cons, ih]
    rw [div_mul_div_comm, div_add_div_same]

/-- The hash embedding of a token-less text (after lowercasing and
whitespace splitting) is the all-zero 64-vector: the accumulator is
untouched and the `or 1.0` guard makes the normalisation divide by 1. -/
theorem hashEmbed_noTokens (h : String → ℕ) (text : String)
    (htok : pySplitWs (pyLower text) = []) :
    hashEmbed h text = List.replicate 64 0 := by
  unfold hashEmbed
  rw [htok]
  simp only [List.foldl_nil]
  rw [sumSq_replicate_zero, sqrtOr1_zero, List.map_replicate]
  norm_num

/-- With at least one token, the accumulated bucket vector has
sum of squares at least 1. -/
theorem sumSq_fold_ge_one (h : String → ℕ) (w : String) (ws : List String) :
    1 ≤ sumSq ((w :: ws).foldl (hashStep h) (List.replicate 64 0)) := by
  have hrep_nn : ∀ x ∈ List.replicate 64 (0 : ℝ), 0 ≤ x := by
    intro x hx
    rw [List.eq_of_mem_replicate hx]
  have hrep_len : 0 < (List.replicate 64 (0 : ℝ)).length := by simp
  have hstep := sumSq_hashStep_ge h (List.replicate 64 0) w hrep_len hrep_nn
  rw [sumSq_replicate_zero, zero_add] at hstep
  have hstep_len : 0 < (hashStep h (List.replicate 64 0) w).length := by
    rw [length_hashStep]
    exact hrep_len
  obtain ⟨_, _, hmono⟩ := hashFold_inv h ws (hashStep h (List.replicate 64 0) w)
    hstep_len (hashStep_nonneg h (List.replicate 64 0) w hrep_nn)
  rw [List.foldl_cons]
  exact le_trans hstep hmono

/-- With at least one token, the hash embedding has unit squared L2
norm. -/
theorem hashEmbed_unit (h : String → ℕ) (text : String)
    (htok : pySplitWs (pyLower text) ≠ []) :
    sumSq (hashEmbed h text) = 1 := by
  obtain ⟨w, ws, hws⟩ := List.exists_cons_of_ne_nil htok
  unfold hashEmbed
  rw [hws]
  have hpos : 0 < sumSq ((w :: ws).foldl (hashStep h) (List.replicate 64 0)) :=
    lt_of_lt_of_le zero_lt_one (sumSq_fold_ge_one h w ws)
  rw [sumSq_map_div, sqrtOr1_of_pos hpos, Real.mul_self_sqrt (le_of_lt hpos),
    div_self (ne_of_gt hpos)]

/-- Length preservation of the whole hash embedding. -/
theorem hashEmbed_len (h : String → ℕ) (text : String) :
    (hashEmbed h text).length = 64 := by
  unfold hashEmbed
  rw [List.length_map]
  have hrep_nn : ∀ x ∈ List.replicate 64 (0 : ℝ), 0 ≤ x := by
    intro x hx
    rw [List.eq_of_mem_replicate hx]
  obtain ⟨hlen, _, _⟩ := hashFold_inv h (pySplitWs (pyLower text))
    (List.replicate 64 0) (by simp) hrep_nn
  rw [hlen, List.length_replicate]

set_option maxRecDepth 8000 in
/-- Claim C7 counterexample — a persistable embedding whose clamped
self-similarity is 0, not ≈ 1: the 120-space message with label
"sadness" scores 0.3 + 0.25 = 0.55 ≥ 0.55, its fallback embedding is the
(non-empty) all-zero 64-vector, so `maybe_store_semantic_memory` inserts
it, yet the stored vector's cosine similarity with itself is 0. -/
theorem persistable_zero_embedding_self_similarity :
    ((maybeStoreSemanticMemory 1 1 1 (embedFallback hashZero spaces120) spaces120
        (some "sadness")).map SemanticMemoryRec.embedding) =
      some (List.replicate 64 (0 : ℝ)) ∧
    cosineSimilarity (List.replicate 64 (0 : ℝ)) (List.replicate 64 (0 : ℝ)) = 0 ∧
    (0 : ℝ) ≠ 1 := by
  have hemb : embedFallback hashZero spaces120 = List.replicate 64 0 := by
    unfold embedFallback
    rw [if_neg (by decide)]
    exact hashEmbed_noTokens hashZero spaces120 (by decide)
  refine ⟨?_, cosineSimilarity_zero_vec _ (by simp) (sumSq_replicate_zero 64), by norm_num⟩
  rw [hemb]
  unfold maybeStoreSemanticMemory
  rw [if_neg (by with_unfolding_all decide :
    ¬ scoreImportance spaces120 (some "sadness") < (0.55 : ℚ))]
  rw [if_neg (by decide : ¬ (List.replicate 64 (0 : ℝ)).isEmpty = true)]
  rfl

/-- Claim C7 as amended — for every embedding vector of non-zero squared
norm (in particular every hash embedding of a text with at least one
token), the clamped cosine similarity with itself is exactly 1; the
zero-norm vectors exhibited by the counterexample are the only
persistable exception. -/
theorem cosineSimilarity_self_of_nonzero (v : List ℝ) (h : sumSq v ≠ 0) :
    cosineSimilarity v v = 1 := by
  have hpos : 0 < sumSq v := lt_of_le_of_ne (sumSq_nonneg v) (Ne.symm h)
  have hne : v ≠ [] := by
    intro hnil
    rw [hnil] at h
    exact h rfl
  have hempty : v.isEmpty = false := by
    cases v
    · exact absurd rfl hne
    · rfl
  unfold cosineSimilarity
  rw [if_neg (by simp [hempty])]
  have hmul : Real.sqrt (sumSq v) * Real.sqrt (sumSq v) = sumSq v :=
    Real.mul_self_sqrt (le_of_lt hpos)
  norm_num [dotList_self, sqrtOr1_of_pos hpos, hmul, div_self h]

/-- Witness for the amended C7 at a concrete vector. -/
theorem cosineSimilarity_self_of_nonzero_witness :
    cosineSimilarity [(1 : ℝ)] [(1 : ℝ)] = 1 :=
  cosineSimilarity_self_of_nonzero [(1 : ℝ)] (by norm_num [sumSq])

set_option maxRecDepth 8000 in
/-- Claim C10 — confirmed: the fallback hash embedding always has
exactly 64 entries; it has unit L2 norm (squared norm 1) whenever the
lowercased text splits into at least one token; for a non-empty
token-less (whitespace-only) text it is the all-zero 64-vector, which is
non-empty — so `embed` hands it past the write path's empty-embedding
guard with self-similarity 0 after clamping — and a record with that
zero-norm embedding is in fact persisted (130 spaces, label "fear",
score 0.325 + 0.25 = 0.575 ≥ 0.55). -/
theorem hashEmbed_shape_and_norm (h : String → ℕ) (text : String) :
    (hashEmbed h text).length = 64 ∧
    (pySplitWs (pyLower text) ≠ [] → sumSq (hashEmbed h text) = 1) ∧
    (text ≠ "" → pySplitWs (pyLower text) = [] →
      hashEmbed h text = List.replicate 64 0 ∧
      embedFallback h text ≠ [] ∧
      cosineSimilarity (embedFallback h text) (embedFallback h text) = 0) ∧
    ((maybeStoreSemanticMemory 2 2 2 (embedFallback hashZero spaces130) spaces130
        (some "fear")).map SemanticMemoryRec.embedding) =
      some (List.replicate 64 (0 : ℝ)) := by
  refine ⟨hashEmbed_len h text, hashEmbed_unit h text, ?_, ?_⟩
  · intro hne htok
    have hzero := hashEmbed_noTokens h text htok
    have hfb : embedFallback h text = List.replicate 64 0 := by
      unfold embedFallback
      rw [if_neg hne]
      exact hzero
    refine ⟨hzero, ?_, ?_⟩
    · rw [hfb]
      simp
    · rw [hfb]
      exact cosineSimilarity_zero_vec _ (by simp) (sumSq_replicate_zero 64)
  · have hemb : embedFallback hashZero spaces130 = List.replicate 64 0 := by
      unfold embedFallback
      rw [if_neg (by decide)]
      exact hashEmbed_noTokens hashZero spaces130 (by decide)
    rw [hemb]
    unfold maybeStoreSemanticMemory
    rw [if_neg (by with_unfolding_all decide :
      ¬ scoreImportance spaces130 (some "fear") < (0.55 : ℚ))]
    rw [if_neg (by decide : ¬ (List.replicate 64 (0 : ℝ)).isEmpty = true)]
    rfl

/-- Witness for C10: a concrete one-token text has a unit-norm
64-dimensional hash embedding. -/
theorem hashEmbed_shape_and_norm_witness :
    (hashEmbed hashZero "hello").length = 64 ∧
    sumSq (hashEmbed hashZero "hello") = 1 :=
  ⟨(hashEmbed_shape_and_norm hashZero "hello").1,
   (hashEmbed_shape_and_norm hashZero "hello").2.1 (by decide)⟩

/-- Fresh path of the profile aggregator: a row younger than the TTL is
served as-is and the stored state is untouched. -/
theorem getOrComputeProfile_fresh (row : ProfileRow) (c : ℚ) (insight : Insight)
    (uid : ℕ) (n1 n2 n3 : ℚ) (hc : row.computed_at = some c)
    (hfresh : n1 - c ≤ profileTTL) :
    getOrComputeProfile (some row) insight uid n1 n2 n3 =
      ({ dominant_emotion := row.dominant_emotion
         dominance_pct := row.dominance_pct.getD 0
         volatility_index := row.volatility_index.getD 0
         resilience_score := row.resilience_score.getD 0
         log_count := row.log_count.getD 0
         trend := row.trend
         computed_at := some c }, some row) := by
  unfold getOrComputeProfile
  simp only [hc]
  rw [if_pos hfresh]

/-- Stale path of the profile aggregator: the stored row's `computed_at`
becomes the second clock reading, the returned summary's `computed_at`
the third. -/
theorem getOrComputeProfile_stale (row : ProfileRow) (c : ℚ) (insight : Insight)
    (uid : ℕ) (n1 n2 n3 : ℚ) (hc : row.computed_at = some c)
    (hstale : ¬ n1 - c ≤ profileTTL) :
    (getOrComputeProfile (some row) insight uid n1 n2 n3).1.computed_at = some n3 ∧
    ((getOrComputeProfile (some row) insight uid n1 n2 n3).2.bind
        ProfileRow.computed_at) = some n2 := by
  unfold getOrComputeProfile
  simp only [hc]
  rw [if_neg hstale]
  exact ⟨rfl, rfl⟩

/-- Claim C5 — confirmed: while a stored computation is inside the
12-hour staleness window, every call serves the stored `computed_at`
unchanged (so two such calls agree identically and the row is not
rewritten); a call after the window has elapsed stores a strictly later
`computed_at` (second clock reading) and returns a strictly later one
(third clock reading), so `computed_at` strictly increases on the
recompute. -/
theorem profile_computedAt_freshness (row : ProfileRow) (c : ℚ)
    (insight insight2 : Insight) (uid : ℕ)
    (ta ta2 ta3 tb tb2 tb3 t1 t2 t3 : ℚ)
    (hc : row.computed_at = some c)
    (hfresh_a : ta - c ≤ profileTTL) (hfresh_b : tb - c ≤ profileTTL)
    (hstale : profileTTL < t1 - c) (h12 : t1 ≤ t2) (h23 : t2 ≤ t3) :
    (getOrComputeProfile (some row) insight uid ta ta2 ta3).1.computed_at = some c ∧
    (getOrComputeProfile (some row) insight uid ta ta2 ta3).2 = some row ∧
    (getOrComputeProfile ((getOrComputeProfile (some row) insight uid ta ta2 ta3).2)
        insight2 uid tb tb2 tb3).1.computed_at = some c ∧
    ((getOrComputeProfile (some row) insight uid t1 t2 t3).2.bind
        ProfileRow.computed_at) = some t2 ∧
    c < t2 ∧
    (getOrComputeProfile (some row) insight uid t1 t2 t3).1.computed_at = some t3 ∧
    c < t3 := by
  have hfa := getOrComputeProfile_fresh row c insight uid ta ta2 ta3 hc hfresh_a
  have hstale' : ¬ t1 - c ≤ profileTTL := not_le.mpr hstale
  obtain ⟨hs1, hs2⟩ := getOrComputeProfile_stale row c insight uid t1 t2 t3 hc hstale'
  have httl : (0 : ℚ) < profileTTL := by norm_num [profileTTL]
  have hct2 : c < t2 := by linarith
  have hct3 : c < t3 := by linarith
  refine ⟨by rw [hfa], by rw [hfa], ?_, hs2, hct2, hs1, hct3⟩
  rw [hfa]
  have hfb := getOrComputeProfile_fresh row c insight2 uid tb tb2 tb3 hc hfresh_b
  rw [hfb]

/-- Witness for C5: fresh calls at hours 1 and 2 both report hour 0; the
stale call at hour 13 stores hour 13 and reports hour 14, both after
hour 0. -/
theorem profile_computedAt_freshness_witness :
    (getOrComputeProfile (some wProfileRow) wInsight 1 1 1 1).1.computed_at = some 0 ∧
    ((getOrComputeProfile (some wProfileRow) wInsight 1 13 13 14).2.bind
        ProfileRow.computed_at) = some 13 ∧
    (getOrComputeProfile (some wProfileRow) wInsight 1 13 13 14).1.computed_at = some 14 := by
  have h := profile_computedAt_freshness wProfileRow 0 wInsight wInsight 1
    1 1 1 2 2 2 13 13 14 rfl
    (by norm_num [profileTTL]) (by norm_num [profileTTL])
    (by norm_num [profileTTL]) (by norm_num) (by norm_num)
  exact ⟨h.1, h.2.2.2.1, h.2.2.2.2.2.1⟩

/-- Appending a character list to the list it starts with keeps the
start. -/
theorem startsList_append (p r : List Char) : startsList p (p ++ r) = true := by
  induction p with
  | nil => rfl
  | cons a as ih => simp [startsList, ih]

theorem str_toList_append (a b : String) : (a ++ b).toList = a.toList ++ b.toList := by
  cases a
  cases b
  rfl

/-- Every content built by `_create_summary` starts with the marker. -/
theorem pyStartsWith_marker (s : String) :
    pyStartsWith ("[CONTEXT SUMMARY] " ++ s) summaryMarker = true := by
  unfold pyStartsWith
  rw [str_toList_append]
  have h1 : ("[CONTEXT SUMMARY] " : String).toList =
      summaryMarker.toList ++ [' '] := by decide
  rw [h1, List.append_assoc]
  exact startsList_append summaryMarker.toList _

/-- A run of non-summary messages passes through the extraction loop
appended to the accumulator, leaving the summary untouched. -/
theorem extractSummary_foldl_clean (l : List Msg) (acc : Option String × List Msg)
    (h : ∀ m ∈ l, isSummaryMessage m = false) :
    l.foldl extractStep acc = (acc.1, acc.2 ++ l) := by
  induction l generalizing acc with
  | nil => simp
  | cons m ms ih =>
    have hm : isSummaryMessage m = false := h m (List.mem_cons_self m ms)
    have hstep : extractStep acc m = (acc.1, acc.2 ++ [m]) := by
      unfold extractStep
      rw [if_neg (by simp [hm])]
    rw [List.foldl_cons, hstep, ih _ (fun x hx => h x (List.mem_cons_of_mem m hx))]
    simp

/-- `_create_summary` of a non-empty segment is recognised by
`_extract_summary`'s test. -/
theorem createSummary_isSummary (old : List Msg) (h : old ≠ []) :
    isSummaryMessage (createSummary old) = true ∧ (createSummary old).role = "system" := by
  unfold createSummary
  rw [if_neg (by simp [List.isEmpty_eq_true, h])]
  refine ⟨?_, rfl⟩
  unfold isSummaryMessage
  rw [pyStartsWith_marker]
  rfl

/-- Claim C9 counterexample — extraction does not return "exactly the
content with the `[CONTEXT SUMMARY]` prefix stripped": it also strips
surrounding whitespace.  For a summary of an assistant-only segment the
content ends in `"...discussed: "`, and the extracted text drops both
the separator space after the marker and that trailing space, so it
differs from the prefix-stripped content under either reading of
"prefix" (with or without the separator space). -/
theorem extractSummary_trims_not_just_strips :
    (extractSummary [createSummary [⟨"assistant", "a"⟩]]).1 =
      some "Earlier in this conversation, the user discussed:" ∧
    (createSummary [⟨"assistant", "a"⟩]).content =
      "[CONTEXT SUMMARY] Earlier in this conversation, the user discussed: " ∧
    (extractSummary [createSummary [⟨"assistant", "a"⟩]]).1 ≠
      some (pyDropChars (createSummary [⟨"assistant", "a"⟩]).content
        summaryMarker.length) ∧
    (extractSummary [createSummary [⟨"assistant", "a"⟩]]).1 ≠
      some (pyDropChars (createSummary [⟨"assistant", "a"⟩]).content
        (summaryMarker.length + 1)) := by
  decide

/-- Claim C9 as amended — every Selector summary for a non-empty old
segment is a system-role message whose content starts with
`[CONTEXT SUMMARY]`; the Orchestrator's extraction, applied to a history
whose only summary-marked message is that one, returns its content with
the marker prefix removed and surrounding whitespace trimmed, and
returns the remaining turns unchanged and in order. -/
theorem selectorSummary_roundTrip (old pre post : List Msg)
    (hold : old ≠ [])
    (hpre : ∀ m ∈ pre, isSummaryMessage m = false)
    (hpost : ∀ m ∈ post, isSummaryMessage m = false) :
    (createSummary old).role = "system" ∧
    pyStartsWith (createSummary old).content summaryMarker = true ∧
    extractSummary (pre ++ createSummary old :: post) =
      (some (pyStrip (pyDropChars (createSummary old).content summaryMarker.length)),
       pre ++ post) := by
  obtain ⟨hsum, hrole⟩ := createSummary_isSummary old hold
  have hstart : pyStartsWith (createSummary old).content summaryMarker = true := by
    unfold isSummaryMessage at hsum
    exact (Bool.and_eq_true _ _).mp hsum |>.2
  refine ⟨hrole, hstart, ?_⟩
  unfold extractSummary
  rw [List.foldl_append, extractSummary_foldl_clean pre (none, []) hpre,
    List.foldl_cons]
  have hstep : extractStep ((none : Option String), [] ++ pre) (createSummary old) =
      (some (pyStrip (pyDropChars (createSummary old).content summaryMarker.length)),
       [] ++ pre) := by
    unfold extractStep
    rw [if_pos hsum]
  rw [hstep, extractSummary_foldl_clean post _ hpost]
  simp

/-- Witness for the amended C9 at a concrete history. -/
theorem selectorSummary_roundTrip_witness :
    extractSummary [⟨"user", "x"⟩, createSummary [⟨"user", "hi"⟩]] =
      (some (pyStrip (pyDropChars (createSummary [⟨"user", "hi"⟩]).content
        summaryMarker.length)), [⟨"user", "x"⟩]) :=
  (selectorSummary_roundTrip [⟨"user", "hi"⟩] [⟨"user", "x"⟩] []
    (by decide) (by decide) (by decide)).2.2

/-- Claim C3 counterexample — for empty text the write path's score is
not the claimed formula: `_score_importance` short-circuits `""` to 0,
while the claimed formula (with a strong emotion label) gives 0.25. -/
theorem scoreImportance_empty_text_gap :
    scoreImportance "" (some "sadness") = 0 ∧
    scoreImportanceSpec "" (some "sadness") = 0.25 ∧
    scoreImportance "" (some "sadness") ≠ scoreImportanceSpec "" (some "sadness") := by
  with_unfolding_all decide

/-- Claim C3 as amended — for every non-empty text the score is the
claimed formula (empty text scores 0); a record is inserted iff the score
is ≥ 0.55 and the requested embedding is non-empty; and no inserted
record carries an empty embedding. -/
theorem maybeStore_scoring_and_guard (text : String) (label : Option String)
    (emb : List ℝ) (uid cid mid : ℕ) :
    (text ≠ "" → scoreImportance text label = scoreImportanceSpec text label) ∧
    scoreImportance "" label = 0 ∧
    ((maybeStoreSemanticMemory uid cid mid emb text label).isSome = true ↔
      (0.55 : ℚ) ≤ scoreImportance text label ∧ emb ≠ []) ∧
    (∀ r, maybeStoreSemanticMemory uid cid mid emb text label = some r →
      r.embedding ≠ []) := by
  refine ⟨scoreImportance_nonempty_eq text label, rfl, ?_, ?_⟩
  · unfold maybeStoreSemanticMemory
    by_cases hs : scoreImportance text label < (0.55 : ℚ)
    · rw [if_pos hs]
      simp [not_le.mpr hs]
    · rw [if_neg hs]
      by_cases hemb : emb.isEmpty = true
      · rw [if_pos hemb]
        simp [List.isEmpty_eq_true.mp hemb]
      · rw [if_neg hemb]
        simp only [Option.isSome_some, true_iff]
        exact ⟨not_lt.mp hs, fun hnil => hemb (by rw [hnil]; rfl)⟩
  · intro r hr
    unfold maybeStoreSemanticMemory at hr
    by_cases hs : scoreImportance text label < (0.55 : ℚ)
    · rw [if_pos hs] at hr
      exact absurd hr (by simp)
    · rw [if_neg hs] at hr
      by_cases hemb : emb.isEmpty = true
      · rw [if_pos hemb] at hr
        exact absurd hr (by simp)
      · rw [if_neg hemb] at hr
        have : r.embedding = emb := by
          cases hr
          rfl
        rw [this]
        intro hnil
        exact hemb (by rw [hnil]; rfl)

/-- Witness for the amended C3: a concrete non-empty text matches the
formula, and a concrete high-scoring message with a non-empty embedding
is stored. -/
theorem maybeStore_scoring_and_guard_witness :
    scoreImportance "x" none = scoreImportanceSpec "x" none ∧
    (maybeStoreSemanticMemory 1 1 1 [(1 : ℝ)] "I feel hopeless about suicide"
        (some "sadness")).isSome = true :=
  ⟨(maybeStore_scoring_and_guard "x" none [(1 : ℝ)] 1 1 1).1 (by decide),
   ((maybeStore_scoring_and_guard "I feel hopeless about suicide" (some "sadness")
        [(1 : ℝ)] 1 1 1).2.2.1).mpr
     ⟨by with_unfolding_all decide, by simp⟩⟩

/-- Claim C2 — refuted (code bug): on `hist16` the Selector keeps the two
LOWEST-scoring older turns ("aa" then "a"), because the descending score
sort is sliced with `[-important_limit:]` instead of
`[:important_limit]`, and it emits them in score order (here
reverse-chronological: "aa" before the earlier "a"), not in original
chronological order.  The discarded older turns of ten and eleven 'a's
strictly outscore both kept turns. -/
theorem contextSelector_keeps_lowest_scored :
    getOptimizedHistory hist16 =
      [⟨"system", "[CONTEXT SUMMARY] Earlier in this conversation, the user discussed: a, aa ...and 7 more topics"⟩,
       ⟨"user", "aa"⟩, ⟨"user", "a"⟩,
       ⟨"user", "r1"⟩, ⟨"user", "r2"⟩, ⟨"user", "r3"⟩, ⟨"user", "r4"⟩, ⟨"user", "r5"⟩] ∧
    ctxScore ⟨"user", "aaaaaaaaaaa"⟩ > ctxScore ⟨"user", "aa"⟩ ∧
    ctxScore ⟨"user", "aaaaaaaaaa"⟩ > ctxScore ⟨"user", "aa"⟩ := by
  with_unfolding_all decide

/-- Claim C1 — refuted by the code (code bug): `build_memory_bundle` has
no exception handling around its four steps, and neither does its call
site in the chat router, so when the context-cache upsert step throws,
the whole call propagates the error instead of returning a usable
`MemoryBundle` with only that field degraded.  This theorem evaluates the
orchestrator at such a failing step: the result is the propagated error,
not a bundle. -/
theorem buildMemoryBundle_propagates_upsert_error (e : String)
    (retrieveSemanticStep : Except String (List SemanticMemorySnippetM))
    (profileStep : Except String (Option EmotionalProfileSummaryM))
    (reflectionStep : Option EmotionalProfileSummaryM →
      Except String (Option MetaReflectionSummaryM))
    (history : List Msg) :
    buildMemoryBundle (fun _ _ => Except.error e)
      retrieveSemanticStep profileStep reflectionStep history = Except.error e := rfl

/-- Claim C6 — confirmed: `_cosine_similarity` always returns a value in
[0, 1] (the clamp), and returns 0 whenever the two vectors have different
lengths or either is empty. -/
theorem cosineSimilarity_range_and_mismatch (a b : List ℝ) :
    0 ≤ cosineSimilarity a b ∧ cosineSimilarity a b ≤ 1 ∧
      ((a = [] ∨ b = [] ∨ a.length ≠ b.length) → cosineSimilarity a b = 0) := by
  unfold cosineSimilarity
  by_cases h : (a.isEmpty || b.isEmpty || a.length != b.length) = true
  · rw [if_pos h]
    exact ⟨le_refl 0, zero_le_one, fun _ => rfl⟩
  · rw [if_neg h]
    refine ⟨le_min zero_le_one (le_max_left 0 _), min_le_left 1 _, fun hc => ?_⟩
    exfalso
    apply h
    simp only [Bool.or_eq_true, List.isEmpty_eq_true, bne_iff_ne, ne_eq]
    tauto

/-- Witness for C6 at a concrete mismatched pair. -/
theorem cosineSimilarity_range_and_mismatch_witness :
    cosineSimilarity [(1 : ℝ)] [] = 0 :=
  (cosineSimilarity_range_and_mismatch [(1 : ℝ)] []).2.2 (Or.inr (Or.inl rfl))

/-- Claim C8 — confirmed: for `N ≤ recent_limit = 5` turns the Selector
returns the history unchanged (in order), and for `5 < N ≤
summary_threshold = 15` it returns exactly the last 5 turns (a suffix,
so no summary message is synthesised). -/
theorem contextSelector_small_and_medium (msgs : List Msg) :
    (msgs.length ≤ recent_limit → getOptimizedHistory msgs = msgs) ∧
    (recent_limit < msgs.length → msgs.length ≤ summary_threshold →
      getOptimizedHistory msgs = msgs.drop (msgs.length - recent_limit) ∧
      (getOptimizedHistory msgs).length = recent_limit) := by
  constructor
  · intro hle
    unfold getOptimizedHistory
    by_cases he : msgs.isEmpty = true
    · rw [if_pos he]
      exact (List.isEmpty_eq_true.mp he).symm
    · rw [if_neg he, if_pos hle]
  · intro h5 h15
    have he : ¬ msgs.isEmpty = true := by
      intro h
      rw [List.isEmpty_eq_true.mp h] at h5
      simp [recent_limit] at h5
    have hdrop : getOptimizedHistory msgs = msgs.drop (msgs.length - recent_limit) := by
      unfold getOptimizedHistory
      rw [if_neg he, if_neg (not_le.mpr h5), if_pos h15]
    refine ⟨hdrop, ?_⟩
    rw [hdrop, List.length_drop]
    unfold recent_limit at h5 ⊢
    omega

/-- Witness for C8: a 6-turn history yields exactly its last 5 turns. -/
theorem contextSelector_small_and_medium_witness :
    getOptimizedHistory
        [⟨"user", "a"⟩, ⟨"user", "b"⟩, ⟨"user", "c"⟩,
         ⟨"user", "d"⟩, ⟨"user", "e"⟩, ⟨"user", "f"⟩] =
      List.drop 1
        [⟨"user", "a"⟩, ⟨"user", "b"⟩, ⟨"user", "c"⟩,
         ⟨"user", "d"⟩, ⟨"user", "e"⟩, ⟨"user", "f"⟩] :=
  ((contextSelector_small_and_medium _).2 (by decide) (by decide)).1
